import Mathlib

/-!
Shallow embedding of the request/response correlation and token-cache logic of
the capacitor-azure-active-directory plugin (src/lib/index.js, class
ActiveDirectoryPlugin), together with theorems settling the frozen claims.

Modelling conventions:
* The browser key-value store (session/local storage) is a total map from
  string keys to optional values.  JS `setItem` coerces its argument to a
  string; the code writes both strings and numbers, and reads them back with
  string truthiness tests and numeric comparisons.  We keep the written value
  as a `CVal` (string or number) and give it the JS observations the code
  uses (truthiness, numeric comparison, string rendering).
* `encodeURIComponent` / `decodeURIComponent` and the base64url+JSON decoding
  of a token payload are external encoding primitives (spec section 1, out of
  scope); they are passed in as function parameters.
* Callbacks are opaque handles: a numeric id plus a flag telling whether the
  callback throws when invoked; dispatch results are recorded as lists of
  (callback, arguments) invocation events.
-/

namespace Adal

/-- A value stored in the key-value store: the code writes both strings and
numbers (`_saveItem` receives either; the browser coerces to string on write,
and the code re-coerces to number where it compares). -/
inductive CVal where
  | str : String → CVal
  | num : Nat → CVal
deriving DecidableEq

/-- JS truthiness of a stored value.  A stored number renders as a non-empty
digit string, hence is always truthy after storage coercion. -/
def CVal.truthy : CVal → Bool
  | .str s => s ≠ ""
  | .num _ => true

/-- The string a stored value reads back as (storage coerces numbers via
String(n)). -/
def CVal.asJsString : CVal → String
  | .str s => s
  | .num n => toString n

/-- Value of a list of decimal digit characters. -/
def digitsToNat (l : List Char) : Nat :=
  l.foldl (fun acc c => acc * 10 + (c.toNat - '0'.toNat)) 0

/-- JS `Number(string)` restricted to the shapes that occur here: the empty
string converts to 0, a plain digit string to its value, anything else to
NaN (`none`). -/
def jsParseNum (s : String) : Option Nat :=
  if s.data = [] then some 0
  else if s.data.all Char.isDigit then some (digitsToNat s.data)
  else none

/-- JS `parseInt(string, 10)` restricted likewise: value of the leading digit
run, NaN (`none`) if there is no leading digit. -/
def jsParseInt (s : String) : Option Nat :=
  let d := s.data.takeWhile Char.isDigit
  if d = [] then none else some (digitsToNat d)

/-- JS `storedValue > bound` where the left side came out of storage: numeric
coercion of the stored string; NaN compares false. -/
def CVal.gtNum : CVal → Nat → Bool
  | .num n, b => b < n
  | .str s, b =>
    match jsParseNum s with
    | some v => b < v
    | none => false

/-- JS `x || dflt` for an optional numeric config entry (0 and absent both
select the default). -/
def jsOrNat : Option Nat → Nat → Nat
  | some v, d => if v = 0 then d else v
  | none, d => d

/-- JS `x ? x : dflt` / `x || dflt` for an optional string (empty and absent
both select the default). -/
def jsOrStr : Option String → String → String
  | some s, d => if s = "" then d else s
  | none, d => d

/-- JS string conversion of a possibly-undefined value used in string
concatenation. -/
def jsUndef : Option String → String
  | some s => s
  | none => "undefined"

/-- The key-value persistence collaborator (e.g. sessionStorage): a total map
from keys to optional stored values. -/
abbrev Store := String → Option CVal

/-- `_getItem`. -/
def Store.get (s : Store) (k : String) : Option CVal := s k

/-- `_saveItem` (non-preserve mode; the preserve/append mode is only used by
the login/renew initiators, which no claim exercises). -/
def Store.saveItem (s : Store) (k : String) (v : CVal) : Store :=
  fun q => if q = k then some v else s q

/-- A store with nothing in it. -/
def Store.empty : Store := fun _ => none

/-- `_getItem(...)` used where JS would apply `|| ''`: falsy reads become the
empty string, numbers read back as their string form. -/
def jsOrEmpty : Option CVal → String
  | none => ""
  | some v => if v.truthy then v.asJsString else ""

/-- `_getItem(...)` rendered inside string concatenation: an absent key reads
as null and concatenates as "null". -/
def cvalOrNull : Option CVal → String
  | some v => v.asJsString
  | none => "null"

/-! Storage key constants (`this.CONSTANTS.STORAGE`). -/

def TOKEN_KEYS_KEY : String := "AD_TOKEN_KEYS"
def ACCESS_TOKEN_KEY : String := "AD_ACCESS_TOKEN_KEY"
def EXPIRATION_KEY : String := "AD_EXPIRATION_KEY"
def STATE_LOGIN : String := "AD_STATE_LOGIN"
def STATE_RENEW : String := "AD_STATE_RENEW"
def NONCE_IDTOKEN : String := "AD_NONCE_IDTOKEN"
def SESSION_STATE_KEY : String := "AD_SESSION_STATE"
def IDTOKEN_KEY : String := "AD_IDTOKEN"
def ERROR_KEY : String := "AD_ERROR"
def ERROR_DESCRIPTION_KEY : String := "AD_ERROR_DESCRIPTION"
def LOGIN_ERROR_KEY : String := "AD_LOGIN_ERROR"
def RENEW_STATUS_KEY : String := "AD_TOKEN_RENEW_STATUS"
def RESOURCE_DELIMETER : String := "|"
def DEFAULT_EXPIRATION_TIME : Nat := 8640000
def TOKEN_RENEW_STATUS_COMPLETED : String := "Completed"

/-- The configuration record, after the constructor's defaulting has run for
the fields the constructor always sets (`instanceUrl` holds `this.instance`). -/
structure Config where
  clientId : String
  redirectUri : String := ""
  expireOffsetSeconds : Option Nat := none
  loginResource : Option String := none
  anonymousEndpoints : List String := []
  endpoints : List (String × String) := []
  instanceUrl : String := "https://login.microsoftonline.com/"
  tenant : Option String := none
  state : String := ""
  slice : Option String := none
  extraQueryParameter : Option String := none
  correlationId : Option String := none

/-! ## List utilities mirroring the JS string primitives -/

/-- JS `String.prototype.split` with a single-character separator. -/
def splitChar (c : Char) : List Char → List (List Char)
  | [] => [[]]
  | a :: t =>
    if a = c then [] :: splitChar c t
    else
      match splitChar c t with
      | [] => [[a]]
      | h :: r => (a :: h) :: r

/-- JS `String.prototype.split` with a two-character separator (used for the
cache delimiter "||"): leftmost, non-overlapping occurrences. -/
def splitSeq2 (a b : Char) : List Char → List (List Char)
  | [] => [[]]
  | [x] => [[x]]
  | x :: y :: t =>
    if x = a ∧ y = b then [] :: splitSeq2 a b t
    else
      match splitSeq2 a b (y :: t) with
      | [] => [[x]]
      | h :: r => (x :: h) :: r

/-- `haystack.indexOf(needle) > -1` for strings (substring containment). -/
def containsSub (hay needle : List Char) : Bool :=
  hay.tails.any (fun t => needle.isPrefixOf t)

/-- JS `s.indexOf(sub) > -1`. -/
def jsContains (s sub : String) : Bool := containsSub s.data sub.data

/-- First index of a substring (JS `indexOf`). -/
def subIdx (needle : List Char) : List Char → Option Nat
  | [] => if needle.isPrefixOf ([] : List Char) then some 0 else none
  | a :: t =>
    if needle.isPrefixOf (a :: t) then some 0
    else (subIdx needle t).map (· + 1)

/-- First index of a character (JS `indexOf`). -/
def firstIdxOfChar (c : Char) : List Char → Option Nat
  | [] => none
  | a :: t => if a = c then some 0 else (firstIdxOfChar c t).map (· + 1)

/-- Split a list at the first occurrence of a character, when there is one. -/
def splitAtFirst (c : Char) : List Char → Option (List Char × List Char)
  | [] => none
  | a :: t =>
    if a = c then some ([], t)
    else (splitAtFirst c t).map (fun pr => (a :: pr.1, pr.2))

/-- JS `String.prototype.toLowerCase` (character-wise, as used on client ids
and `aud` claims). -/
def jsToLower (s : String) : String := ⟨s.data.map Char.toLower⟩

/-- `_isEmpty` (for an argument that is actually a string). -/
def _isEmpty (s : String) : Bool := s.data.isEmpty

/-! ## Identity Token Codec -/

/-- The character set matched by the regex class `[^\.\s]`: anything but a dot
and but JS whitespace (`\s` per ECMAScript). -/
def jsWhitespaceChars : List Char :=
  [' ', '\t', '\n', '\r', '\u000B', '\u000C', '\u00A0', '\u1680',
   '\u2000', '\u2001', '\u2002', '\u2003', '\u2004', '\u2005', '\u2006',
   '\u2007', '\u2008', '\u2009', '\u200A', '\u2028', '\u2029', '\u202F',
   '\u205F', '\u3000', '\uFEFF']

def isSegChar (c : Char) : Bool :=
  ¬ (c = '.') && ¬ jsWhitespaceChars.contains c

/-- Result of `_decodeJwt`. -/
structure CrackedToken where
  header : String
  JWSPayload : String
  JWSSig : String
deriving DecidableEq

/-- `_decodeJwt`: deterministic compilation of the anchored regex
`^([^\.\s]*)\.([^\.\s]+)\.([^\.\s]*)$`.  Each capture group is a greedy run
of segment characters; since the character class excludes the delimiter the
greedy match never needs backtracking, so the regex is equivalent to the
three spans below. -/
def _decodeJwt (jwtToken : String) : Option CrackedToken :=
  if _isEmpty jwtToken then none
  else
    let sp1 := jwtToken.data.span isSegChar
    match sp1.2 with
    | [] => none
    | c1 :: rest2 =>
      if c1 = '.' then
        let sp2 := rest2.span isSegChar
        if sp2.1.isEmpty then none
        else
          match sp2.2 with
          | [] => none
          | c2 :: rest4 =>
            if c2 = '.' then
              let sp3 := rest4.span isSegChar
              match sp3.2 with
              | [] => some ⟨⟨sp1.1⟩, ⟨sp2.1⟩, ⟨sp3.1⟩⟩
              | _ :: _ => none
            else none
      else none

/-- A run of characters all matching the regex class `[^\.\s]`. -/
def SegListOk (l : List Char) : Prop := ∀ c ∈ l, isSegChar c = true

/-- The shape `_decodeJwt` actually accepts: three dot-separated runs of
segment characters, the middle one non-empty (header and signature may be
empty). -/
def jwtShapeCode (s : String) : Prop :=
  ∃ h p g : List Char,
    s.data = h ++ '.' :: (p ++ '.' :: g) ∧
    SegListOk h ∧ p ≠ [] ∧ SegListOk p ∧ SegListOk g

/-- The shape the claim asserts: exactly three NON-EMPTY, whitespace-free
dot-separated segments. -/
def jwtShapeClaim (s : String) : Prop :=
  ∃ h p g : List Char,
    s.data = h ++ '.' :: (p ++ '.' :: g) ∧
    h ≠ [] ∧ p ≠ [] ∧ g ≠ [] ∧ SegListOk h ∧ SegListOk p ∧ SegListOk g

/-- The claims carried in a decoded identity-token payload (the fields the
code reads). -/
structure ClaimMap where
  aud : Option String := none
  upn : Option String := none
  email : Option String := none
  nonce : Option String := none
  sid : Option String := none
  exp : Option Nat := none
deriving DecidableEq

/-- A decoded identity (`User`): username plus the parsed claim map. -/
structure User where
  userName : String
  profile : ClaimMap
deriving DecidableEq

/-- `_extractIdToken`: crack the compact token, then base64url+UTF8+JSON
decode the payload.  The decoding pipeline (`_base64DecodeStringUrlSafe`,
`JSON.parse`) is an external encoding primitive and is passed in as
`decodePayload`; a decode or parse failure yields `none` (the code returns
null from its catch). -/
def _extractIdToken (decodePayload : String → Option ClaimMap)
    (encodedIdToken : String) : Option ClaimMap :=
  match _decodeJwt encodedIdToken with
  | none => none
  | some ct => decodePayload ct.JWSPayload

/-- `_createUser`: build a user object from an id_token; only a payload whose
`aud` claim case-insensitively equals the client id yields a user, and the
username prefers `upn`, then `email`, then empty. -/
def _createUser (clientId : String) (decodePayload : String → Option ClaimMap)
    (idToken : String) : Option User :=
  match _extractIdToken decodePayload idToken with
  | none => none
  | some parsedJson =>
    match parsedJson.aud with
    | none => none
    | some a =>
      if jsToLower a = jsToLower clientId then
        some ⟨match parsedJson.upn with
              | some u => u
              | none =>
                match parsedJson.email with
                | some e => e
                | none => "",
              parsedJson⟩
      else none

/-! ## Correlation State Store: getCachedToken -/

/-- The `const token = this._getItem(ACCESS_TOKEN_KEY + resource) || ''` line
of `getCachedToken`. -/
def cachedTokenValue (s : Store) (resource : String) : CVal :=
  match s.get (ACCESS_TOKEN_KEY ++ resource) with
  | some v => if v.truthy then v else .str ""
  | none => .str ""

/-- `getCachedToken(resource)`: returns the cached token when a stored expiry
is truthy and numerically exceeds now+offset; otherwise returns null after
overwriting the record with an empty token and a `now + 8640000` placeholder
expiry.  Result: (returned value, store after the call). -/
def getCachedToken (cfg : Config) (now : Nat) (s : Store) (resource : String) :
    Option CVal × Store :=
  let token : CVal := cachedTokenValue s resource
  let expiry := s.get (EXPIRATION_KEY ++ resource)
  let offset := jsOrNat cfg.expireOffsetSeconds 300
  match expiry with
  | some e =>
    if e.truthy && e.gtNum (now + offset) then (some token, s)
    else
      (none,
       (s.saveItem (ACCESS_TOKEN_KEY ++ resource) (.str "")).saveItem
         (EXPIRATION_KEY ++ resource) (.num (now + DEFAULT_EXPIRATION_TIME)))
  | none =>
    (none,
     (s.saveItem (ACCESS_TOKEN_KEY ++ resource) (.str "")).saveItem
       (EXPIRATION_KEY ++ resource) (.num (now + DEFAULT_EXPIRATION_TIME)))

/-! ## Pending-Request Registry -/

/-- A registered callback: an opaque handle (id) plus whether invoking it
raises an exception. -/
abbrev Cb := Nat × Bool

/-- The `(errorDesc, token, error, tokenType)` arguments a dispatcher passes
on to every registered callback. -/
structure CbArgs where
  errorDescription : Option String := none
  token : Option String := none
  error : Option String := none
  tokenType : Option String := none
deriving DecidableEq

/-- Pointwise update of a string-keyed map. -/
def upd {α : Type} (f : String → α) (k : String) (v : α) : String → α :=
  fun q => if q = k then v else f q

/-- The in-memory pending-request registry: active renewals per resource,
callback lists per expected state, and the lazily created merged dispatcher
per expected state (`none` models both an absent entry and one nulled out;
the dispatcher entry records the resource its closure captured). -/
structure Registry where
  _activeRenewals : String → Option String
  _callBacksMappedToRenewStates : String → Option (List Cb)
  _callBackMappedToRenewStates : String → Option String

def Registry.empty : Registry := ⟨fun _ => none, fun _ => none, fun _ => none⟩

/-- `registerCallback(expectedState, resource, callback)`. -/
def registerCallback (reg : Registry) (expectedState resource : String)
    (cb : Cb) : Registry :=
  let ar := upd reg._activeRenewals resource (some expectedState)
  let lists :=
    match reg._callBacksMappedToRenewStates expectedState with
    | none => upd reg._callBacksMappedToRenewStates expectedState (some [cb])
    | some l =>
      upd reg._callBacksMappedToRenewStates expectedState (some (l ++ [cb]))
  let disp :=
    match reg._callBackMappedToRenewStates expectedState with
    | none => upd reg._callBackMappedToRenewStates expectedState (some resource)
    | some _ => reg._callBackMappedToRenewStates
  ⟨ar, lists, disp⟩

/-- Look up and invoke the merged dispatcher for `expectedState`, as
`handleWindowCallback` / `_loadFrameTimeout` do (they check presence first;
an absent dispatcher delivers to nobody).  The dispatcher clears the active
renewal for its captured resource, invokes every registered callback in
registration order with the same arguments — the `try`/`catch` around each
call means a throwing callback (`cb.2 = true`) neither stops the loop nor
changes the registry — then nulls out both the callback list and itself.
Result: (registry afterwards, invocation events in order). -/
def invokeMergedCallback (reg : Registry) (expectedState : String)
    (args : CbArgs) : Registry × List (Cb × CbArgs) :=
  match reg._callBackMappedToRenewStates expectedState with
  | none => (reg, [])
  | some resource =>
    let cbs := (reg._callBacksMappedToRenewStates expectedState).getD []
    (⟨upd reg._activeRenewals resource none,
      upd reg._callBacksMappedToRenewStates expectedState none,
      upd reg._callBackMappedToRenewStates expectedState none⟩,
     cbs.map (fun c => (c, args)))

/-- Register a whole list of callbacks for the same state and resource. -/
def registerAll (reg : Registry) (expectedState resource : String)
    (cbs : List Cb) : Registry :=
  cbs.foldl (fun r c => registerCallback r expectedState resource c) reg

/-! ## Response Reconciler -/

/-- The deserialized URL-fragment parameter map. -/
abbrev Params := String → Option String

def Params.empty : Params := fun _ => none

def Params.upd (p : Params) (k v : String) : Params :=
  fun q => if q = k then some v else p q

/-- `_getHash`: strip a leading (first) `#/` or, failing that, the first
character when a `#` occurs anywhere. -/
def _getHash (hash : String) : String :=
  match subIdx ("#/".data) hash.data with
  | some i => ⟨hash.data.drop (i + 2)⟩
  | none => if hash.data.contains '#' then ⟨hash.data.drop 1⟩ else hash

/-- `+` became space before percent-decoding (the `decode` helper inside
`_deserialize`). -/
def jsReplacePlus (s : String) : String :=
  ⟨s.data.map (fun c => if c = '+' then ' ' else c)⟩

/-- One step of the `/([^&=]+)=([^&]*)/g` scan inside an `&`-free chunk:
skip characters that cannot start a key (`=`), then the key is the maximal
run of non-`=` characters, which must be followed by `=`; the value is the
rest of the chunk.  (Since both classes exclude `&`, the global regex scan
over the whole query is the same as this scan per `&`-chunk.) -/
def splitKV (cs : List Char) : Option (List Char × List Char) :=
  splitAtFirst '=' (cs.dropWhile (fun c => c = '='))

/-- `_deserialize`: parse the fragment into a key/value map, later duplicates
overwriting earlier ones.  `dec` is the external `decodeURIComponent`. -/
def _deserialize (dec : String → String) (query : String) : Params :=
  (splitChar '&' query.data).foldl
    (fun obj chunk =>
      match splitKV chunk with
      | some kv => obj.upd (dec (jsReplacePlus ⟨kv.1⟩)) (dec (jsReplacePlus ⟨kv.2⟩))
      | none => obj)
    Params.empty

inductive RequestType where
  | LOGIN
  | RENEW_TOKEN
  | UNKNOWN
deriving DecidableEq

structure RequestInfo where
  valid : Bool
  parameters : Params
  stateMatch : Bool
  stateResponse : String
  requestType : RequestType

/-- The scan of one stored delimited state list (`_matchState`'s two loops):
a stored truthy value is split on the cache delimiter and compared piecewise
with the response state. -/
def stateListContains (s : Store) (key : String) (x : String) : Bool :=
  match s.get key with
  | some v =>
    v.truthy &&
      (splitSeq2 '|' '|' v.asJsString.data).any (fun piece => piece == x.data)
  | none => false

/-- `_matchState`: try the stored login-state list, then the stored
renew-state list; on a match set the request type and stateMatch and report
success. -/
def _matchState (s : Store) (ri : RequestInfo) : RequestInfo × Bool :=
  if stateListContains s STATE_LOGIN ri.stateResponse then
    ({ri with requestType := .LOGIN, stateMatch := true}, true)
  else if stateListContains s STATE_RENEW ri.stateResponse then
    ({ri with requestType := .RENEW_TOKEN, stateMatch := true}, true)
  else (ri, false)

/-- The orchestrator-instance fields `getRequestInfo` reads. -/
structure OrchEnv where
  store : Store
  renewStatesList : List String
  requestTypeField : RequestType

/-- Validity test on a parameter map (response carries error_description,
access_token or id_token). -/
def validParams (p : Params) : Bool :=
  (p "error_description").isSome || (p "access_token").isSome ||
    (p "id_token").isSome

/-- `getRequestInfo(hash)`.  `windowParent` is the truthiness of
`window.parent` — which in a real browser is truthy in every context, nested
or top-level, since a top-level window is its own parent. -/
def getRequestInfo (dec : String → String) (env : OrchEnv)
    (windowParent : Bool) (hash : String) : RequestInfo :=
  let h := _getHash hash
  let parameters := _deserialize dec h
  let ri : RequestInfo := ⟨false, parameters, false, "", .UNKNOWN⟩
  if validParams parameters then
    let ri := {ri with valid := true}
    match parameters "state" with
    | none => ri
    | some stateResponse =>
      let ri := {ri with stateResponse := stateResponse}
      match _matchState env.store ri with
      | (ri2, true) => ri2
      | (ri2, false) =>
        if windowParent then
          let ri3 := {ri2 with requestType := env.requestTypeField}
          if env.renewStatesList.any (fun x => x == ri3.stateResponse) then
            {ri3 with stateMatch := true}
          else ri3
        else ri2
  else ri

/-! ## Save step (saveTokenFromHash) -/

/-- `_getResourceFromState`: the text after the first `|`, when any. -/
def _getResourceFromState (state : String) : String :=
  match firstIdxOfChar '|' state.data with
  | some i =>
    if i + 1 < state.data.length then ⟨state.data.drop (i + 1)⟩ else ""
  | none => ""

/-- `_matchNonce`: the stored nonce list, split on the cache delimiter, must
contain the user's `nonce` claim (strict equality against an undefined claim
is always false). -/
def _matchNonce (s : Store) (u : User) : Bool :=
  match s.get NONCE_IDTOKEN with
  | some v =>
    v.truthy &&
      (splitSeq2 '|' '|' v.asJsString.data).any (fun piece =>
        match u.profile.nonce with
        | some nn => piece == nn.data
        | none => false)
  | none => false

/-- `_hasResource(key)`: the token-keys index contains `key + '|'`. -/
def _hasResource (s : Store) (key : String) : Bool :=
  match s.get TOKEN_KEYS_KEY with
  | some v =>
    v.truthy && containsSub v.asJsString.data (key ++ RESOURCE_DELIMETER).data
  | none => false

/-- The inline index-the-resource snippet of `saveTokenFromHash` (appending
`resource + '|'` to the token-keys index when absent). -/
def appendTokenKey (s : Store) (resource : String) : Store :=
  if _hasResource s resource then s
  else
    s.saveItem TOKEN_KEYS_KEY
      (.str (jsOrEmpty (s.get TOKEN_KEYS_KEY) ++ resource ++ RESOURCE_DELIMETER))

/-- `_expiresIn`: `now + parseInt(expires)`, defaulting a falsy or zero
`expires_in` to 8640000; an unparsable value would store NaN. -/
def _expiresIn (now : Nat) (expires : Option String) : CVal :=
  let e :=
    match expires with
    | none => "8640000"
    | some s =>
      if s = "" then "8640000"
      else if jsParseNum s = some 0 then "8640000"
      else s
  match jsParseInt e with
  | some v => .num (now + v)
  | none => .str "NaN"

/-- The nonce-mismatch login error text. -/
def nonceMismatchMessage (s : Store) (u : User) : String :=
  "Nonce received: " ++ jsUndef u.profile.nonce ++
    " is not same as requested: " ++ cvalOrNull (s.get NONCE_IDTOKEN)

/-- The orchestrator state `saveTokenFromHash` touches. -/
structure OrchState where
  store : Store
  user : Option User
  loginInProgress : Bool

/-- The id_token branch of `saveTokenFromHash` (lines 1248-1300): create the
user, check the nonce, and either record a login error and discard the user,
or persist the id token as the cached token for the login resource with the
token's own `exp` as expiry.  Returns (store, user, parameters, the possibly
reassigned `resource` local). -/
def idTokenBranch (cfg : Config) (decodePayload : String → Option ClaimMap)
    (s : Store) (params : Params) (idtok : String) (resource : String) :
    Store × Option User × Params × String :=
  match _createUser cfg.clientId decodePayload idtok with
  | some u =>
    if ¬ _matchNonce s u then
      (s.saveItem LOGIN_ERROR_KEY (.str (nonceMismatchMessage s u)), none,
       params, resource)
    else
      let s1 := s.saveItem IDTOKEN_KEY (.str idtok)
      let resource2 := jsOrStr cfg.loginResource cfg.clientId
      let s2 := appendTokenKey s1 resource2
      let s3 :=
        (s2.saveItem (ACCESS_TOKEN_KEY ++ resource2) (.str idtok)).saveItem
          (EXPIRATION_KEY ++ resource2)
          (match u.profile.exp with
           | some e => .num e
           | none => .str "undefined")
      (s3, some u, params, resource2)
  | none =>
    let params2 :=
      (params.upd "error" "invalid id_token").upd "error_description"
        ("Invalid id_token. id_token: " ++ idtok)
    ((s.saveItem ERROR_KEY (.str "invalid id_token")).saveItem
       ERROR_DESCRIPTION_KEY (.str ("Invalid id_token. id_token: " ++ idtok)),
     none, params2, resource)

/-- `saveTokenFromHash(requestInfo)`: record errors, or (on a state match)
persist session state, access token and identity token, finally marking the
per-resource renewal status Completed.  Returns the new orchestrator state
and the (possibly mutated) parameter map. -/
def saveTokenFromHash (cfg : Config) (decodePayload : String → Option ClaimMap)
    (now : Nat) (st : OrchState) (ri : RequestInfo) : OrchState × Params :=
  let s1 := (st.store.saveItem ERROR_KEY (.str "")).saveItem
    ERROR_DESCRIPTION_KEY (.str "")
  let resource := _getResourceFromState ri.stateResponse
  match ri.parameters "error_description" with
  | some desc =>
    let s2 := (s1.saveItem ERROR_KEY
        (.str (jsUndef (ri.parameters "error")))).saveItem
      ERROR_DESCRIPTION_KEY (.str desc)
    let s3 :=
      if ri.requestType = .LOGIN then s2.saveItem LOGIN_ERROR_KEY (.str desc)
      else s2
    let lip := if ri.requestType = .LOGIN then false else st.loginInProgress
    (⟨s3.saveItem (RENEW_STATUS_KEY ++ resource)
        (.str TOKEN_RENEW_STATUS_COMPLETED), st.user, lip⟩,
     ri.parameters)
  | none =>
    if ri.stateMatch then
      let s2 :=
        match ri.parameters "session_state" with
        | some ss => s1.saveItem SESSION_STATE_KEY (.str ss)
        | none => s1
      let s3 :=
        match ri.parameters "access_token" with
        | some atok =>
          let s2b := appendTokenKey s2 resource
          (s2b.saveItem (ACCESS_TOKEN_KEY ++ resource) (.str atok)).saveItem
            (EXPIRATION_KEY ++ resource)
            (_expiresIn now (ri.parameters "expires_in"))
        | none => s2
      match ri.parameters "id_token" with
      | some idtok =>
        match idTokenBranch cfg decodePayload s3 ri.parameters idtok resource with
        | (s4, user4, params4, resource4) =>
          (⟨s4.saveItem (RENEW_STATUS_KEY ++ resource4)
              (.str TOKEN_RENEW_STATUS_COMPLETED), user4, false⟩,
           params4)
      | none =>
        (⟨s3.saveItem (RENEW_STATUS_KEY ++ resource)
            (.str TOKEN_RENEW_STATUS_COMPLETED), st.user, st.loginInProgress⟩,
         ri.parameters)
    else
      let params2 :=
        (ri.parameters.upd "error" "Invalid_state").upd "error_description"
          ("Invalid_state. state: " ++ ri.stateResponse)
      let s2 := (s1.saveItem ERROR_KEY (.str "Invalid_state")).saveItem
        ERROR_DESCRIPTION_KEY (.str ("Invalid_state. state: " ++ ri.stateResponse))
      (⟨s2.saveItem (RENEW_STATUS_KEY ++ resource)
          (.str TOKEN_RENEW_STATUS_COMPLETED), st.user, st.loginInProgress⟩,
       params2)

/-! ## Authorization Request Builder -/

/-- The parameter list `_serialize` pushes (joined with `&` afterwards).
`enc` is the external `encodeURIComponent`; `guid` stands for the `_guid()`
fallback correlation id.  Note the source pushes the client id — not the
`resource` argument, which it ignores — as the `resource` parameter, and
hardcodes the response type. -/
def serializeParams (enc : String → String) (guid : String)
    (responseType : String) (obj : Option Config) (resource : Option String) :
    List String :=
  match obj with
  | none => []
  | some o =>
    ["?response_type=" ++ "id_token token",
     "client_id=" ++ enc o.clientId,
     "resource=" ++ enc o.clientId,
     "redirect_uri=" ++ enc o.redirectUri,
     "state=" ++ enc o.state] ++
    (match o.slice with
     | some sl => ["slice=" ++ enc sl]
     | none => []) ++
    (match o.extraQueryParameter with
     | some eqp => [eqp]
     | none => []) ++
    ["client-request-id=" ++ enc (jsOrStr o.correlationId guid)]

/-- `_serialize`. -/
def _serialize (enc : String → String) (guid : String) (responseType : String)
    (obj : Option Config) (resource : Option String) : String :=
  String.intercalate "&" (serializeParams enc guid responseType obj resource)

def _libVersion : String := "1.0.17"

def _addLibMetadata : String := "&x-client-SKU=Js&x-client-Ver=" ++ _libVersion

/-- `_getNavigateUrl`. -/
def _getNavigateUrl (enc : String → String) (guid : String) (cfg : Config)
    (responseType : String) (resource : Option String) : String :=
  let tenant := jsOrStr cfg.tenant "common"
  cfg.instanceUrl ++ tenant ++ "/oauth2/authorize" ++
    _serialize enc guid responseType (some cfg) resource ++ _addLibMetadata

/-! ## Resource-to-Token Mapping -/

/-- `_getHostFromUri`: strip a leading scheme (`^(https?:)//` only at the
start), then keep the text before the first `/`. -/
def _getHostFromUri (uri : String) : String :=
  let extractedUri :=
    if ("https://".data).isPrefixOf uri.data then uri.data.drop 8
    else if ("http://".data).isPrefixOf uri.data then uri.data.drop 7
    else uri.data
  ⟨extractedUri.takeWhile (fun c => ¬ (c = '/'))⟩

/-- The `for` loop over `config.anonymousEndpoints`. -/
def anonymousLoop (endpoint : String) : List String → Bool
  | [] => false
  | a :: rest =>
    if jsContains endpoint a then true else anonymousLoop endpoint rest

/-- The `for .. in` loop over `config.endpoints` (insertion order). -/
def endpointsLoop (endpoint : String) : List (String × String) → Option String
  | [] => none
  | p :: rest =>
    if jsContains endpoint p.1 then some p.2 else endpointsLoop endpoint rest

/-- `getResourceForEndpoint`. -/
def getResourceForEndpoint (cfg : Config) (endpoint : String) : Option String :=
  if anonymousLoop endpoint cfg.anonymousEndpoints then none
  else
    match endpointsLoop endpoint cfg.endpoints with
    | some r => some r
    | none =>
      if jsContains endpoint "http://" || jsContains endpoint "https://" then
        if _getHostFromUri endpoint = _getHostFromUri cfg.redirectUri then
          cfg.loginResource
        else none
      else cfg.loginResource

/-- The claim's reading of `resourceForEndpoint` (spec section 4.7, claim
C8): "absolute" means the URL *starts with* a scheme.  Kept as a second
definition to compare against the code. -/
def specResourceForEndpoint (cfg : Config) (endpoint : String) : Option String :=
  if cfg.anonymousEndpoints.any (fun a => jsContains endpoint a) then none
  else
    match (cfg.endpoints.find? (fun pr => jsContains endpoint pr.1)).map Prod.snd with
    | some r => some r
    | none =>
      if ("http://".data).isPrefixOf endpoint.data ||
          ("https://".data).isPrefixOf endpoint.data then
        if _getHostFromUri endpoint = _getHostFromUri cfg.redirectUri then
          cfg.loginResource
        else none
      else cfg.loginResource

/-- The amended reading: the scheme test is substring containment anywhere in
the URL, exactly as the code's `indexOf > -1` does. -/
def specResourceForEndpointAmended (cfg : Config) (endpoint : String) :
    Option String :=
  if cfg.anonymousEndpoints.any (fun a => jsContains endpoint a) then none
  else
    match (cfg.endpoints.find? (fun pr => jsContains endpoint pr.1)).map Prod.snd with
    | some r => some r
    | none =>
      if jsContains endpoint "http://" || jsContains endpoint "https://" then
        if _getHostFromUri endpoint = _getHostFromUri cfg.redirectUri then
          cfg.loginResource
        else none
      else cfg.loginResource

/-- Concrete configuration used to exercise `getResourceForEndpoint`. -/
def endpointConfigExample : Config :=
  {clientId := "c", redirectUri := "https://app/x", loginResource := some "LR"}

/-- The claim's reading of the `resource` query parameter of the built
authorization URL: equal to the requested resource, defaulting to the client
id when none is given. -/
def specC7ResourceParam (enc : String → String) (cfg : Config)
    (resource : Option String) (ps : List String) : Prop :=
  ("resource=" ++ enc (jsOrStr resource cfg.clientId)) ∈ ps

/-- Concrete configuration used to exercise `_serialize`. -/
def serializeConfigExample : Config :=
  {clientId := "c", redirectUri := "u", state := "st"}

/-! Concrete inputs used to exercise `saveTokenFromHash`. -/

def idClaimsExample : ClaimMap := {aud := some "C", nonce := some "n", exp := some 99}

def idPayloadDecoderExample : String → Option ClaimMap :=
  fun _ => some idClaimsExample

def idStateExample : OrchState :=
  ⟨Store.empty.saveItem NONCE_IDTOKEN (.str "n||"), none, true⟩

def idStateMismatchExample : OrchState :=
  ⟨Store.empty.saveItem NONCE_IDTOKEN (.str "x||"), none, true⟩

def idResponseExample : RequestInfo :=
  ⟨true, Params.empty.upd "id_token" "h.p.s", true, "st|res", .LOGIN⟩

def errorStateExample : OrchState :=
  ⟨Store.empty.saveItem (ACCESS_TOKEN_KEY ++ "x") (.str "t0"), none, true⟩

def errorResponseExample : RequestInfo :=
  ⟨true, Params.empty.upd "error_description" "boom", false, "abc|res",
   .RENEW_TOKEN⟩

/-! ## acquireTokenRedirect guard section -/

/-- Observable outcome of the guard section of a token-acquisition entry
point: a raised TypeError, a synchronous callback invocation, or fall-through
into URL construction and navigation (out-of-scope collaborators). -/
inductive TokenCallResult where
  | threwTypeError : TokenCallResult
  | calledBack (cb : Nat) (errorDesc : String) (token : Option String)
      (error : String) : TokenCallResult
  | started : TokenCallResult
deriving DecidableEq

/-- Invoking a JS value as a callback: invoking null/undefined raises a
TypeError. -/
def jsCall (cb : Option Nat) (errorDesc : String) (token : Option String)
    (error : String) : TokenCallResult :=
  match cb with
  | some c => .calledBack c errorDesc token error
  | none => .threwTypeError

/-- `acquireTokenRedirect(resource, ...)` guard section.  The local variable
`callback` is declared with `var` *below* its first use, so it is hoisted and
still undefined when the empty-resource guard fires: that guard invokes
undefined.  Only after the guard does `var callback = this.callback` run
(`thisCallback`, null unless configured). -/
def acquireTokenRedirect (thisCallback : Option Nat) (user : Option User)
    (acquireTokenInProgress : Bool) (resource : String) : TokenCallResult :=
  if _isEmpty resource then
    jsCall none "resource is required" none "resource is required"
  else
    let callback := thisCallback
    if user.isNone then
      jsCall callback "User login is required" none "login required"
    else if acquireTokenInProgress then
      jsCall callback "Acquire token interactive is already in progress" none
        "Acquire token interactive is already in progress"
    else .started

/-! ## Helper lemmas -/

theorem str_data_append (s t : String) : (s ++ t).data = s.data ++ t.data := by
  cases s
  cases t
  rfl

theorem str_append_empty (s : String) : s ++ "" = s := by
  cases s
  exact congrArg String.mk (List.append_nil _)

theorem take_append_of_le {α : Type} (n : Nat) (l₁ l₂ : List α)
    (h : n ≤ l₁.length) : (l₁ ++ l₂).take n = l₁.take n := by
  induction l₁ generalizing n with
  | nil =>
    have hn : n = 0 := Nat.le_zero.mp h
    subst hn
    simp
  | cons a t ih =>
    cases n with
    | zero => simp
    | succ m =>
      simp only [List.cons_append, List.take_succ_cons]
      rw [ih m (Nat.le_of_succ_le_succ h)]

/-- Two strings with distinct fixed-length openings stay distinct under any
suffixes: the workhorse for storage-key disjointness. -/
theorem str_append_ne (p q a b : String) (n : Nat) (h1 : n ≤ p.data.length)
    (h2 : n ≤ q.data.length) (h3 : p.data.take n ≠ q.data.take n) :
    p ++ a ≠ q ++ b := by
  intro h
  apply h3
  have hd : p.data ++ a.data = q.data ++ b.data := by
    rw [← str_data_append, ← str_data_append, h]
  calc p.data.take n = (p.data ++ a.data).take n :=
        (take_append_of_le n _ _ h1).symm
    _ = (q.data ++ b.data).take n := by rw [hd]
    _ = q.data.take n := take_append_of_le n _ _ h2

theorem str_append_ne_lit (p q a : String) (n : Nat) (h1 : n ≤ p.data.length)
    (h2 : n ≤ q.data.length) (h3 : p.data.take n ≠ q.data.take n) :
    p ++ a ≠ q := fun h =>
  str_append_ne p q a "" n h1 h2 h3 (h.trans (str_append_empty q).symm)

theorem str_lit_ne_append (p q a : String) (n : Nat) (h1 : n ≤ p.data.length)
    (h2 : n ≤ q.data.length) (h3 : p.data.take n ≠ q.data.take n) :
    q ≠ p ++ a := (str_append_ne_lit p q a n h1 h2 h3).symm

theorem Store.get_saveItem_same (s : Store) (k : String) (v : CVal) :
    (s.saveItem k v).get k = some v := by
  simp [Store.get, Store.saveItem]

theorem Store.get_saveItem_ne (s : Store) (k : String) (v : CVal) (q : String)
    (h : q ≠ k) : (s.saveItem k v).get q = s.get q := by
  simp [Store.get, Store.saveItem, h]

/-! Registry bookkeeping lemmas -/

theorem registerCallback_cbs (reg : Registry) (S R : String) (c : Cb) :
    (registerCallback reg S R c)._callBacksMappedToRenewStates S =
      some (((reg._callBacksMappedToRenewStates S).getD []) ++ [c]) := by
  unfold registerCallback
  cases h : reg._callBacksMappedToRenewStates S <;> simp [upd, h]

theorem registerCallback_disp (reg : Registry) (S R : String) (c : Cb) :
    (registerCallback reg S R c)._callBackMappedToRenewStates S =
      some ((reg._callBackMappedToRenewStates S).getD R) := by
  unfold registerCallback
  cases h : reg._callBackMappedToRenewStates S <;> simp [upd, h]

theorem registerCallback_active (reg : Registry) (S R : String) (c : Cb) :
    (registerCallback reg S R c)._activeRenewals R = some S := by
  simp [registerCallback, upd]

theorem registerAll_cons (reg : Registry) (S R : String) (c : Cb)
    (rest : List Cb) :
    registerAll reg S R (c :: rest) =
      registerAll (registerCallback reg S R c) S R rest := rfl

theorem registerAll_cbs (S R : String) :
    ∀ (cbs : List Cb) (reg : Registry), cbs ≠ [] →
      (registerAll reg S R cbs)._callBacksMappedToRenewStates S =
        some (((reg._callBacksMappedToRenewStates S).getD []) ++ cbs) := by
  intro cbs
  induction cbs with
  | nil => intro reg h; cases h rfl
  | cons c rest ih =>
    intro reg _
    rw [registerAll_cons]
    cases rest with
    | nil =>
      show (registerCallback reg S R c)._callBacksMappedToRenewStates S = _
      rw [registerCallback_cbs]
    | cons d t =>
      rw [ih (registerCallback reg S R c) (by simp)]
      rw [registerCallback_cbs]
      simp

theorem registerAll_disp (S R : String) :
    ∀ (cbs : List Cb) (reg : Registry), cbs ≠ [] →
      (registerAll reg S R cbs)._callBackMappedToRenewStates S =
        some ((reg._callBackMappedToRenewStates S).getD R) := by
  intro cbs
  induction cbs with
  | nil => intro reg h; cases h rfl
  | cons c rest ih =>
    intro reg _
    rw [registerAll_cons]
    cases rest with
    | nil =>
      show (registerCallback reg S R c)._callBackMappedToRenewStates S = _
      rw [registerCallback_disp]
    | cons d t =>
      rw [ih (registerCallback reg S R c) (by simp)]
      rw [registerCallback_disp]
      simp

theorem registerAll_active (S R : String) :
    ∀ (cbs : List Cb) (reg : Registry), cbs ≠ [] →
      (registerAll reg S R cbs)._activeRenewals R = some S := by
  intro cbs
  induction cbs with
  | nil => intro reg h; cases h rfl
  | cons c rest ih =>
    intro reg _
    rw [registerAll_cons]
    cases rest with
    | nil => exact registerCallback_active reg S R c
    | cons d t => exact ih (registerCallback reg S R c) (by simp)

/-! ## Claim theorems -/

/-- C1.  For every resource R, getCachedToken(R) returns the stored token if
and only if a stored expiry exists with expiry > now + expireOffsetSeconds
(offset defaulting to 300); in every other case it returns null and, as a
side effect, overwrites the stored record for R with an empty token and a
placeholder expiry of now + 8,640,000 seconds.  The well-formedness
hypothesis says the expiry slot holds a stored number, or a non-numeric or
empty string, or nothing — which covers everything the code ever writes
there. -/
theorem claim1_getCachedToken (cfg : Config) (now : Nat) (s : Store)
    (resource : String)
    (hwf : ∀ t, s.get (EXPIRATION_KEY ++ resource) = some (.str t) →
      jsParseNum t = none ∨ t = "") :
    ((∃ e : Nat, s.get (EXPIRATION_KEY ++ resource) = some (.num e) ∧
        now + jsOrNat cfg.expireOffsetSeconds 300 < e) →
      getCachedToken cfg now s resource = (some (cachedTokenValue s resource), s)) ∧
    (¬ (∃ e : Nat, s.get (EXPIRATION_KEY ++ resource) = some (.num e) ∧
        now + jsOrNat cfg.expireOffsetSeconds 300 < e) →
      (getCachedToken cfg now s resource).1 = none ∧
      (getCachedToken cfg now s resource).2.get (ACCESS_TOKEN_KEY ++ resource) =
        some (.str "") ∧
      (getCachedToken cfg now s resource).2.get (EXPIRATION_KEY ++ resource) =
        some (.num (now + DEFAULT_EXPIRATION_TIME)) ∧
      ∀ k, k ≠ ACCESS_TOKEN_KEY ++ resource → k ≠ EXPIRATION_KEY ++ resource →
        (getCachedToken cfg now s resource).2.get k = s.get k) := by
  have hAE : ACCESS_TOKEN_KEY ++ resource ≠ EXPIRATION_KEY ++ resource :=
    str_append_ne _ _ _ _ 4 (by decide) (by decide) (by decide)
  constructor
  · rintro ⟨e, he, hgt⟩
    simp only [getCachedToken, he, CVal.truthy, CVal.gtNum]
    simp [hgt]
  · intro hno
    have hbad : ∀ v, s.get (EXPIRATION_KEY ++ resource) = some v →
        (v.truthy && v.gtNum (now + jsOrNat cfg.expireOffsetSeconds 300)) = false := by
      intro v hv
      cases v with
      | num e =>
        have : ¬ (now + jsOrNat cfg.expireOffsetSeconds 300 < e) :=
          fun hgt => hno ⟨e, hv, hgt⟩
        simp [CVal.truthy, CVal.gtNum, this]
      | str t =>
        rcases hwf t hv with hp | hp
        · simp [CVal.truthy, CVal.gtNum, hp]
        · subst hp; simp [CVal.truthy]
    have hres : getCachedToken cfg now s resource =
        (none,
         (s.saveItem (ACCESS_TOKEN_KEY ++ resource) (.str "")).saveItem
           (EXPIRATION_KEY ++ resource) (.num (now + DEFAULT_EXPIRATION_TIME))) := by
      simp only [getCachedToken]
      cases hv : s.get (EXPIRATION_KEY ++ resource) with
      | none => simp
      | some v => simp [hbad v hv]
    refine ⟨by rw [hres], ?_, ?_, ?_⟩
    · rw [hres]
      simp only
      rw [Store.get_saveItem_ne _ _ _ _ hAE, Store.get_saveItem_same]
    · rw [hres]
      simp only
      rw [Store.get_saveItem_same]
    · intro k hk1 hk2
      rw [hres]
      simp only
      rw [Store.get_saveItem_ne _ _ _ _ hk2, Store.get_saveItem_ne _ _ _ _ hk1]

/-- Witness for C1 at a concrete store: a live record is returned unchanged,
and an expired record reads as absent and is reset. -/
theorem claim1_witness :
    getCachedToken {clientId := "c"} 0
      ((Store.empty.saveItem (EXPIRATION_KEY ++ "r") (.num 1000)).saveItem
        (ACCESS_TOKEN_KEY ++ "r") (.str "tok")) "r" =
      (some (.str "tok"),
       (Store.empty.saveItem (EXPIRATION_KEY ++ "r") (.num 1000)).saveItem
         (ACCESS_TOKEN_KEY ++ "r") (.str "tok")) := by
  have h := claim1_getCachedToken {clientId := "c"} 0
    ((Store.empty.saveItem (EXPIRATION_KEY ++ "r") (.num 1000)).saveItem
      (ACCESS_TOKEN_KEY ++ "r") (.str "tok")) "r"
    (by
      intro t ht
      have hv : ((Store.empty.saveItem (EXPIRATION_KEY ++ "r") (.num 1000)).saveItem
          (ACCESS_TOKEN_KEY ++ "r") (.str "tok")).get (EXPIRATION_KEY ++ "r") =
          some (.num 1000) := by decide
      rw [hv] at ht
      exact CVal.noConfusion (Option.some.inj ht))
  have hgood := h.1 ⟨1000, by decide, by decide⟩
  rw [hgood]
  have : cachedTokenValue
      ((Store.empty.saveItem (EXPIRATION_KEY ++ "r") (.num 1000)).saveItem
        (ACCESS_TOKEN_KEY ++ "r") (.str "tok")) "r" = .str "tok" := by decide
  rw [this]

/-- C2.  For every expected-state S with N callbacks registered via
registerCallback before resolution, invoking the merged dispatcher for S once
clears the active-renewal entry for the associated resource and invokes all N
callbacks in registration order with the same arguments (the per-callback
try/catch means throwing callbacks — those with flag true — are delivered to
and skipped over exactly like the others, never propagating); afterwards the
callback list and the dispatcher entry for S are removed, so a second
invocation looked up for S delivers to no callback. -/
theorem claim2_registerCallback_dispatch (reg : Registry) (S R : String)
    (cbs : List Cb) (args : CbArgs)
    (hfresh1 : reg._callBacksMappedToRenewStates S = none)
    (hfresh2 : reg._callBackMappedToRenewStates S = none)
    (hne : cbs ≠ []) :
    (invokeMergedCallback (registerAll reg S R cbs) S args).2 =
      cbs.map (fun c => (c, args)) ∧
    (invokeMergedCallback (registerAll reg S R cbs) S args).1._activeRenewals R =
      none ∧
    (invokeMergedCallback (registerAll reg S R cbs) S
      args).1._callBacksMappedToRenewStates S = none ∧
    (invokeMergedCallback (registerAll reg S R cbs) S
      args).1._callBackMappedToRenewStates S = none ∧
    (invokeMergedCallback
      (invokeMergedCallback (registerAll reg S R cbs) S args).1 S args).2 = [] := by
  have hdisp := registerAll_disp S R cbs reg hne
  rw [hfresh2] at hdisp
  have hcbs := registerAll_cbs S R cbs reg hne
  rw [hfresh1] at hcbs
  simp only [Option.getD] at hdisp hcbs
  have hinv : invokeMergedCallback (registerAll reg S R cbs) S args =
      (⟨upd (registerAll reg S R cbs)._activeRenewals R none,
        upd (registerAll reg S R cbs)._callBacksMappedToRenewStates S none,
        upd (registerAll reg S R cbs)._callBackMappedToRenewStates S none⟩,
       cbs.map (fun c => (c, args))) := by
    unfold invokeMergedCallback
    rw [hdisp, hcbs]
    simp
  refine ⟨by rw [hinv], ?_, ?_, ?_, ?_⟩
  · rw [hinv]; simp [upd]
  · rw [hinv]; simp [upd]
  · rw [hinv]; simp [upd]
  · rw [hinv]
    unfold invokeMergedCallback
    simp [upd]

/-- Witness for C2: two callbacks (the first one throwing) registered on the
empty registry are both delivered once, in order, and a second dispatch
delivers nothing. -/
theorem claim2_witness :
    (invokeMergedCallback (registerAll Registry.empty "s" "r"
      [(1, true), (2, false)]) "s" {errorDescription := some "e"}).2 =
      [((1, true), {errorDescription := some "e"}),
       ((2, false), {errorDescription := some "e"})] ∧
    (invokeMergedCallback (registerAll Registry.empty "s" "r"
      [(1, true), (2, false)]) "s"
      {errorDescription := some "e"}).1._activeRenewals "r" = none ∧
    (invokeMergedCallback
      (invokeMergedCallback (registerAll Registry.empty "s" "r"
        [(1, true), (2, false)]) "s" {errorDescription := some "e"}).1 "s"
      {errorDescription := some "e"}).2 = [] := by
  have h := claim2_registerCallback_dispatch Registry.empty "s" "r"
    [(1, true), (2, false)] {errorDescription := some "e"} rfl rfl (by simp)
  exact ⟨h.1, h.2.1, h.2.2.2.2⟩

/-! Span facts used for the token codec claims -/

theorem span_eq_pair {α : Type} (p : α → Bool) (l : List α) :
    l.span p = (l.takeWhile p, l.dropWhile p) := List.span_eq_take_drop p l

theorem mem_takeWhile_sat {p : Char → Bool} :
    ∀ (l : List Char) (c : Char), c ∈ l.takeWhile p → p c = true := by
  intro l
  induction l with
  | nil => intro c h; cases h
  | cons a t ih =>
    intro c h
    by_cases hp : p a
    · rw [List.takeWhile_cons, if_pos hp] at h
      rcases List.mem_cons.mp h with h1 | h1
      · rwa [h1]
      · exact ih c h1
    · rw [List.takeWhile_cons, if_neg hp] at h
      cases h

theorem dropWhile_head_false {p : Char → Bool} :
    ∀ (l : List Char) (c : Char) (t : List Char),
      l.dropWhile p = c :: t → p c = false := by
  intro l
  induction l with
  | nil => intro c t h; cases h
  | cons a rest ih =>
    intro c t h
    by_cases hp : p a
    · rw [List.dropWhile_cons, if_pos hp] at h
      exact ih c t h
    · rw [List.dropWhile_cons, if_neg hp] at h
      cases h
      simpa using hp

theorem takeWhile_all_append {p : Char → Bool} :
    ∀ (h t : List Char), (∀ c ∈ h, p c = true) →
      (∀ c l, t = c :: l → p c = false) → (h ++ t).takeWhile p = h := by
  intro h
  induction h with
  | nil =>
    intro t _ ht
    cases t with
    | nil => rfl
    | cons c l =>
      simp [List.takeWhile_cons, ht c l rfl]
  | cons a h' ih =>
    intro t hh ht
    have ha : p a = true := hh a (List.mem_cons_self a h')
    rw [List.cons_append, List.takeWhile_cons, if_pos ha,
      ih t (fun c hc => hh c (List.mem_cons_of_mem a hc)) ht]

theorem dropWhile_all_append {p : Char → Bool} :
    ∀ (h t : List Char), (∀ c ∈ h, p c = true) →
      (∀ c l, t = c :: l → p c = false) → (h ++ t).dropWhile p = t := by
  intro h
  induction h with
  | nil =>
    intro t _ ht
    cases t with
    | nil => rfl
    | cons c l =>
      simp [List.dropWhile_cons, ht c l rfl]
  | cons a h' ih =>
    intro t hh ht
    have ha : p a = true := hh a (List.mem_cons_self a h')
    rw [List.cons_append, List.dropWhile_cons, if_pos ha,
      ih t (fun c hc => hh c (List.mem_cons_of_mem a hc)) ht]

theorem span_eq_of {p : Char → Bool} (h t : List Char)
    (hh : ∀ c ∈ h, p c = true) (ht : ∀ c l, t = c :: l → p c = false) :
    (h ++ t).span p = (h, t) := by
  rw [span_eq_pair, takeWhile_all_append h t hh ht, dropWhile_all_append h t hh ht]

/-- C5 counterexample: `.x.` — empty header and signature — decodes
successfully, while the claim's shape (all three segments non-empty) rejects
it, so the claimed equivalence fails at this input. -/
theorem claim5_counterexample :
    (_decodeJwt ".x.").isSome = true ∧ ¬ jwtShapeClaim ".x." := by
  constructor
  · decide
  · rintro ⟨h, p, g, heq, hh, hp, hg, -⟩
    have hlen : (h ++ '.' :: (p ++ '.' :: g)).length = 3 := by
      rw [← heq]; decide
    simp only [List.length_append, List.length_cons] at hlen
    have h1 := List.length_pos.mpr hh
    have h2 := List.length_pos.mpr hp
    have h3 := List.length_pos.mpr hg
    omega

/-- C5 amended.  The identity-token decode succeeds exactly on strings made
of three whitespace-free, dot-free segments separated by dots with the middle
segment non-empty — the header and signature segments may be empty. -/
theorem claim5_decodeJwt (tok : String) :
    (_decodeJwt tok).isSome = true ↔ jwtShapeCode tok := by
  constructor
  · intro htok
    by_cases hemp : _isEmpty tok = true
    · simp [_decodeJwt, hemp] at htok
    · rw [Bool.not_eq_true] at hemp
      have hsplit1 := List.takeWhile_append_dropWhile (p := isSegChar) (l := tok.data)
      cases hr1 : tok.data.dropWhile isSegChar with
      | nil => simp [_decodeJwt, hemp, span_eq_pair, hr1] at htok
      | cons c1 rest2 =>
        by_cases hdot1 : c1 = '.'
        · subst hdot1
          have hsplit2 := List.takeWhile_append_dropWhile (p := isSegChar) (l := rest2)
          by_cases hpe : (rest2.takeWhile isSegChar).isEmpty
          · simp [_decodeJwt, hemp, span_eq_pair, hr1, hpe] at htok
          · cases hr3 : rest2.dropWhile isSegChar with
            | nil => simp [_decodeJwt, hemp, span_eq_pair, hr1, hpe, hr3] at htok
            | cons c2 rest4 =>
              by_cases hdot2 : c2 = '.'
              · subst hdot2
                have hsplit3 := List.takeWhile_append_dropWhile (p := isSegChar) (l := rest4)
                cases hr5 : rest4.dropWhile isSegChar with
                | nil =>
                  have hg : rest4.takeWhile isSegChar = rest4 := by
                    conv_rhs => rw [← hsplit3]
                    rw [hr5, List.append_nil]
                  refine ⟨tok.data.takeWhile isSegChar, rest2.takeWhile isSegChar,
                    rest4, ?_, ?_, ?_, ?_, ?_⟩
                  · calc tok.data
                        = tok.data.takeWhile isSegChar ++
                            tok.data.dropWhile isSegChar := hsplit1.symm
                      _ = tok.data.takeWhile isSegChar ++ '.' :: rest2 := by
                          rw [hr1]
                      _ = tok.data.takeWhile isSegChar ++
                            '.' :: (rest2.takeWhile isSegChar ++
                              rest2.dropWhile isSegChar) := by rw [hsplit2]
                      _ = tok.data.takeWhile isSegChar ++
                            '.' :: (rest2.takeWhile isSegChar ++ '.' :: rest4) := by
                          rw [hr3]
                  · exact fun c hc => mem_takeWhile_sat _ c hc
                  · intro hnil
                    rw [hnil] at hpe
                    exact hpe rfl
                  · exact fun c hc => mem_takeWhile_sat _ c hc
                  · intro c hc
                    refine mem_takeWhile_sat rest4 c ?_
                    rw [hg]
                    exact hc
                | cons c3 rest6 =>
                  simp [_decodeJwt, hemp, span_eq_pair, hr1, hpe, hr3, hr5] at htok
              · simp [_decodeJwt, hemp, span_eq_pair, hr1, hpe, hr3, hdot2] at htok
        · simp [_decodeJwt, hemp, span_eq_pair, hr1, hdot1] at htok
  · rintro ⟨h, p, g, heq, hsh, hpne, hsp, hsg⟩
    have hdotF : isSegChar '.' = false := by decide
    have ht1 : tok.data.takeWhile isSegChar = h := by
      rw [heq]
      exact takeWhile_all_append h ('.' :: (p ++ '.' :: g)) hsh
        (fun c l hc => by cases hc; exact hdotF)
    have hd1 : tok.data.dropWhile isSegChar = '.' :: (p ++ '.' :: g) := by
      rw [heq]
      exact dropWhile_all_append h ('.' :: (p ++ '.' :: g)) hsh
        (fun c l hc => by cases hc; exact hdotF)
    have ht2 : (p ++ '.' :: g).takeWhile isSegChar = p :=
      takeWhile_all_append p ('.' :: g) hsp
        (fun c l hc => by cases hc; exact hdotF)
    have hd2 : (p ++ '.' :: g).dropWhile isSegChar = '.' :: g :=
      dropWhile_all_append p ('.' :: g) hsp
        (fun c l hc => by cases hc; exact hdotF)
    have ht3 : g.takeWhile isSegChar = g := by
      have := takeWhile_all_append g [] hsg (fun c l hc => by cases hc)
      rwa [List.append_nil] at this
    have hd3 : g.dropWhile isSegChar = [] := by
      have := dropWhile_all_append g [] hsg (fun c l hc => by cases hc)
      rwa [List.append_nil] at this
    have hemp : _isEmpty tok = false := by
      simp [_isEmpty, heq]
    have hpe : p.isEmpty = false := by
      cases p with
      | nil => cases hpne rfl
      | cons a t => rfl
    simp [_decodeJwt, hemp, span_eq_pair, ht1, hd1, ht2, hd2, ht3, hd3, hpe]

/-- C4.  An identity is constructed from a decoded claim map only when the
aud claim case-insensitively equals the configured client id (a missing or
different aud never produces an identity), and the constructed identity's
userName is the upn claim when present, else the email claim when present,
else the empty string. -/
theorem claim4_createUser (clientId : String)
    (decodePayload : String → Option ClaimMap) (tok : String)
    (claims : ClaimMap)
    (h : _extractIdToken decodePayload tok = some claims) :
    (claims.aud = none → _createUser clientId decodePayload tok = none) ∧
    (∀ a, claims.aud = some a → jsToLower a ≠ jsToLower clientId →
      _createUser clientId decodePayload tok = none) ∧
    (∀ a, claims.aud = some a → jsToLower a = jsToLower clientId →
      _createUser clientId decodePayload tok =
        some ⟨match claims.upn with
              | some u => u
              | none =>
                match claims.email with
                | some e => e
                | none => "",
              claims⟩) := by
  refine ⟨?_, ?_, ?_⟩
  · intro haud
    simp [_createUser, h, haud]
  · intro a haud hne
    simp [_createUser, h, haud, hne]
  · intro a haud heq
    simp [_createUser, h, haud, heq]

/-- Witness for C4: a matching-aud (case-insensitively) payload produces the
identity with userName from upn; the token string itself has the decodable
three-segment shape. -/
theorem claim4_witness :
    _createUser "c" (fun _ => some {aud := some "C", upn := some "u@d"})
      "h.p.s" =
      some ⟨"u@d", {aud := some "C", upn := some "u@d"}⟩ := by
  have h := claim4_createUser "c" (fun _ => some {aud := some "C", upn := some "u@d"})
    "h.p.s" {aud := some "C", upn := some "u@d"} (by decide)
  exact h.2.2 "C" rfl (by decide)

/-- C7 counterexample: with client id `c` and requested resource `r`, the
serialized parameter list carries `resource=c` and no `resource=r` — the
resource argument is ignored, refuting "resource parameter equal to the
requested resource". -/
theorem claim7_counterexample :
    ¬ specC7ResourceParam (fun s => s) serializeConfigExample (some "r")
      (serializeParams (fun s => s) "g" "token" (some serializeConfigExample)
        (some "r")) ∧
    ("resource=" ++ "c") ∈
      serializeParams (fun s => s) "g" "token" (some serializeConfigExample)
        (some "r") := by
  constructor
  · intro hmem
    unfold specC7ResourceParam at hmem
    exact absurd hmem (by decide)
  · decide

/-- C7 amended.  For every response type and requested resource, the built
authorization URL always includes the fixed `id_token token` response type,
the client_id, a resource parameter equal to the CLIENT ID (the requested
resource argument is ignored by the serializer), the redirect_uri, the state
value, a request-correlation id, and the library version metadata. -/
theorem claim7_navigate_url (enc : String → String) (guid : String)
    (responseType : String) (o : Config) (resource : Option String) :
    ("?response_type=" ++ "id_token token") ∈
      serializeParams enc guid responseType (some o) resource ∧
    ("client_id=" ++ enc o.clientId) ∈
      serializeParams enc guid responseType (some o) resource ∧
    ("resource=" ++ enc o.clientId) ∈
      serializeParams enc guid responseType (some o) resource ∧
    ("redirect_uri=" ++ enc o.redirectUri) ∈
      serializeParams enc guid responseType (some o) resource ∧
    ("state=" ++ enc o.state) ∈
      serializeParams enc guid responseType (some o) resource ∧
    ("client-request-id=" ++ enc (jsOrStr o.correlationId guid)) ∈
      serializeParams enc guid responseType (some o) resource ∧
    _getNavigateUrl enc guid o responseType resource =
      o.instanceUrl ++ jsOrStr o.tenant "common" ++ "/oauth2/authorize" ++
        _serialize enc guid responseType (some o) resource ++
        "&x-client-SKU=Js&x-client-Ver=1.0.17" := by
  refine ⟨?_, ?_, ?_, ?_, ?_, ?_, ?_⟩
  · cases hsl : o.slice <;> cases hq : o.extraQueryParameter <;>
      simp [serializeParams, hsl, hq]
  · cases hsl : o.slice <;> cases hq : o.extraQueryParameter <;>
      simp [serializeParams, hsl, hq]
  · cases hsl : o.slice <;> cases hq : o.extraQueryParameter <;>
      simp [serializeParams, hsl, hq]
  · cases hsl : o.slice <;> cases hq : o.extraQueryParameter <;>
      simp [serializeParams, hsl, hq]
  · cases hsl : o.slice <;> cases hq : o.extraQueryParameter <;>
      simp [serializeParams, hsl, hq]
  · cases hsl : o.slice <;> cases hq : o.extraQueryParameter <;>
      simp [serializeParams, hsl, hq]
  · show _ = _
    unfold _getNavigateUrl _addLibMetadata _libVersion
    rfl

/-- C8 counterexample: a relative URL that merely CONTAINS `http://` is sent
down the host-comparison path by the code and yields no resource, while the
claim's absolute-URL reading would give the default login resource. -/
theorem claim8_counterexample :
    getResourceForEndpoint endpointConfigExample "/a/http://b" = none ∧
    specResourceForEndpoint endpointConfigExample "/a/http://b" = some "LR" := by
  constructor
  · decide
  · decide

theorem anonymousLoop_eq (endpoint : String) :
    ∀ l : List String,
      anonymousLoop endpoint l = l.any (fun a => jsContains endpoint a) := by
  intro l
  induction l with
  | nil => rfl
  | cons a rest ih =>
    by_cases h : jsContains endpoint a
    · simp [anonymousLoop, h]
    · simp [anonymousLoop, h, ih]

theorem endpointsLoop_eq (endpoint : String) :
    ∀ l : List (String × String),
      endpointsLoop endpoint l =
        (l.find? (fun pr => jsContains endpoint pr.1)).map Prod.snd := by
  intro l
  induction l with
  | nil => rfl
  | cons a rest ih =>
    by_cases h : jsContains endpoint a.1
    · simp [endpointsLoop, List.find?, h]
    · simp [endpointsLoop, List.find?, h, ih]

/-- C8 amended.  `getResourceForEndpoint` returns none when the URL contains
a configured anonymous-endpoint substring; else the configured resource for
the first endpoint mapping whose key occurs in the URL; else, when the URL
contains `http://` or `https://` ANYWHERE and its extracted host differs from
the redirect URI's host, none; else the configured login resource. -/
theorem claim8_getResourceForEndpoint (cfg : Config) (endpoint : String) :
    getResourceForEndpoint cfg endpoint =
      specResourceForEndpointAmended cfg endpoint := by
  unfold getResourceForEndpoint specResourceForEndpointAmended
  rw [anonymousLoop_eq, endpointsLoop_eq]

/-- C6 counterexample: for a valid response whose state matches neither
stored list, `window.parent` being truthy (as it is in every browser context,
top-level included: a top-level window is its own parent) makes the code set
requestType to the orchestrator's tracked kind — here LOGIN — with stateMatch
false, where the claim demands requestType UNKNOWN outside a nested
context. -/
theorem claim6_counterexample :
    (getRequestInfo (fun s => s) ⟨Store.empty, [], .LOGIN⟩ true
      "#id_token=t&state=s").stateMatch = false ∧
    (getRequestInfo (fun s => s) ⟨Store.empty, [], .LOGIN⟩ true
      "#id_token=t&state=s").requestType ≠ .UNKNOWN := by
  constructor
  · decide
  · decide

/-- C6 amended.  For every valid parsed response: no state parameter returns
immediately with stateMatch=false / requestType=UNKNOWN; else the stored
login-state list is checked first (match: LOGIN, true), then the stored
renewal-state list (match: RENEW_TOKEN, true); else, whenever `window.parent`
is truthy — which holds in every browser context, nested or not — requestType
is set to the orchestrator's currently tracked request kind unconditionally
and the in-memory renewStates list decides stateMatch; only with a falsy
`window.parent` would the result stay stateMatch=false / UNKNOWN. -/
theorem claim6_getRequestInfo (dec : String → String) (env : OrchEnv)
    (wp : Bool) (hash : String) :
    (validParams (_deserialize dec (_getHash hash)) = false →
      getRequestInfo dec env wp hash =
        ⟨false, _deserialize dec (_getHash hash), false, "", .UNKNOWN⟩) ∧
    (validParams (_deserialize dec (_getHash hash)) = true →
      (_deserialize dec (_getHash hash)) "state" = none →
      getRequestInfo dec env wp hash =
        ⟨true, _deserialize dec (_getHash hash), false, "", .UNKNOWN⟩) ∧
    (∀ st, validParams (_deserialize dec (_getHash hash)) = true →
      (_deserialize dec (_getHash hash)) "state" = some st →
      ((stateListContains env.store STATE_LOGIN st = true →
          (getRequestInfo dec env wp hash).stateMatch = true ∧
          (getRequestInfo dec env wp hash).requestType = .LOGIN) ∧
       (stateListContains env.store STATE_LOGIN st = false →
        stateListContains env.store STATE_RENEW st = true →
          (getRequestInfo dec env wp hash).stateMatch = true ∧
          (getRequestInfo dec env wp hash).requestType = .RENEW_TOKEN) ∧
       (stateListContains env.store STATE_LOGIN st = false →
        stateListContains env.store STATE_RENEW st = false →
        wp = true →
          (getRequestInfo dec env wp hash).requestType = env.requestTypeField ∧
          (getRequestInfo dec env wp hash).stateMatch =
            env.renewStatesList.any (fun x => x == st)) ∧
       (stateListContains env.store STATE_LOGIN st = false →
        stateListContains env.store STATE_RENEW st = false →
        wp = false →
          (getRequestInfo dec env wp hash).stateMatch = false ∧
          (getRequestInfo dec env wp hash).requestType = .UNKNOWN))) := by
  refine ⟨?_, ?_, ?_⟩
  · intro hv
    simp [getRequestInfo, hv]
  · intro hv hst
    simp [getRequestInfo, hv, hst]
  · intro st hv hst
    refine ⟨?_, ?_, ?_, ?_⟩
    · intro h1
      simp [getRequestInfo, _matchState, hv, hst, h1]
    · intro h1 h2
      simp [getRequestInfo, _matchState, hv, hst, h1, h2]
    · intro h1 h2 hwp
      subst hwp
      cases hany : env.renewStatesList.any (fun x => x == st) with
      | true => simp [getRequestInfo, _matchState, hv, hst, h1, h2, hany]
      | false => simp [getRequestInfo, _matchState, hv, hst, h1, h2, hany]
    · intro h1 h2 hwp
      subst hwp
      simp [getRequestInfo, _matchState, hv, hst, h1, h2]

/-- Witness for C6: a state present in the stored login-state list classifies
as LOGIN with stateMatch true. -/
theorem claim6_witness :
    (getRequestInfo (fun s => s)
      ⟨Store.empty.saveItem STATE_LOGIN (.str "s"), [], .UNKNOWN⟩ true
      "#id_token=t&state=s").stateMatch = true ∧
    (getRequestInfo (fun s => s)
      ⟨Store.empty.saveItem STATE_LOGIN (.str "s"), [], .UNKNOWN⟩ true
      "#id_token=t&state=s").requestType = .LOGIN := by
  have h := (claim6_getRequestInfo (fun s => s)
    ⟨Store.empty.saveItem STATE_LOGIN (.str "s"), [], .UNKNOWN⟩ true
    "#id_token=t&state=s").2.2 "s" (by decide) (by decide)
  exact h.1 (by decide)

/-! Frame lemmas for the save step -/

theorem appendTokenKey_get_ne (s : Store) (r k : String)
    (h : k ≠ TOKEN_KEYS_KEY) : (appendTokenKey s r).get k = s.get k := by
  unfold appendTokenKey
  split
  · rfl
  · rw [Store.get_saveItem_ne _ _ _ _ h]

theorem matchNonce_congr (s1 s2 : Store) (u : User)
    (h : s1.get NONCE_IDTOKEN = s2.get NONCE_IDTOKEN) :
    _matchNonce s1 u = _matchNonce s2 u := by
  unfold _matchNonce
  rw [h]

/-- In the no-error, state-matched, id-token-carrying case, the save step is
the id-token branch run against some intermediate store whose nonce slot is
untouched, followed by the renewal-status finalization. -/
theorem saveTokenFromHash_id_case (cfg : Config)
    (dec : String → Option ClaimMap) (now : Nat) (st : OrchState)
    (ri : RequestInfo) (tok : String)
    (hnoerr : ri.parameters "error_description" = none)
    (hmatch : ri.stateMatch = true)
    (htok : ri.parameters "id_token" = some tok) :
    ∃ s3 : Store, s3.get NONCE_IDTOKEN = st.store.get NONCE_IDTOKEN ∧
      saveTokenFromHash cfg dec now st ri =
        (match idTokenBranch cfg dec s3 ri.parameters tok
            (_getResourceFromState ri.stateResponse) with
         | (s4, user4, params4, resource4) =>
           (⟨s4.saveItem (RENEW_STATUS_KEY ++ resource4)
               (.str TOKEN_RENEW_STATUS_COMPLETED), user4, false⟩, params4)) := by
  have nNE : NONCE_IDTOKEN ≠ ERROR_KEY := by decide
  have nND : NONCE_IDTOKEN ≠ ERROR_DESCRIPTION_KEY := by decide
  have nNS : NONCE_IDTOKEN ≠ SESSION_STATE_KEY := by decide
  have nNT : NONCE_IDTOKEN ≠ TOKEN_KEYS_KEY := by decide
  have nNA : ∀ r : String, NONCE_IDTOKEN ≠ ACCESS_TOKEN_KEY ++ r := fun r =>
    str_lit_ne_append _ _ _ 4 (by decide) (by decide) (by decide)
  have nNX : ∀ r : String, NONCE_IDTOKEN ≠ EXPIRATION_KEY ++ r := fun r =>
    str_lit_ne_append _ _ _ 4 (by decide) (by decide) (by decide)
  cases hss : ri.parameters "session_state" with
  | none =>
    cases hat : ri.parameters "access_token" with
    | none =>
      refine ⟨(st.store.saveItem ERROR_KEY (.str "")).saveItem
        ERROR_DESCRIPTION_KEY (.str ""), ?_, ?_⟩
      · rw [Store.get_saveItem_ne _ _ _ _ nND, Store.get_saveItem_ne _ _ _ _ nNE]
      · simp [saveTokenFromHash, hnoerr, hmatch, htok, hss, hat]
    | some atok =>
      refine ⟨(((appendTokenKey ((st.store.saveItem ERROR_KEY (.str "")).saveItem
          ERROR_DESCRIPTION_KEY (.str "")) (_getResourceFromState ri.stateResponse)).saveItem
          (ACCESS_TOKEN_KEY ++ _getResourceFromState ri.stateResponse) (.str atok)).saveItem
          (EXPIRATION_KEY ++ _getResourceFromState ri.stateResponse)
          (_expiresIn now (ri.parameters "expires_in"))), ?_, ?_⟩
      · rw [Store.get_saveItem_ne _ _ _ _ (nNX _),
          Store.get_saveItem_ne _ _ _ _ (nNA _), appendTokenKey_get_ne _ _ _ nNT,
          Store.get_saveItem_ne _ _ _ _ nND, Store.get_saveItem_ne _ _ _ _ nNE]
      · simp [saveTokenFromHash, hnoerr, hmatch, htok, hss, hat]
  | some ss =>
    cases hat : ri.parameters "access_token" with
    | none =>
      refine ⟨((st.store.saveItem ERROR_KEY (.str "")).saveItem
        ERROR_DESCRIPTION_KEY (.str "")).saveItem SESSION_STATE_KEY (.str ss),
        ?_, ?_⟩
      · rw [Store.get_saveItem_ne _ _ _ _ nNS, Store.get_saveItem_ne _ _ _ _ nND,
          Store.get_saveItem_ne _ _ _ _ nNE]
      · simp [saveTokenFromHash, hnoerr, hmatch, htok, hss, hat]
    | some atok =>
      refine ⟨(((appendTokenKey (((st.store.saveItem ERROR_KEY (.str "")).saveItem
          ERROR_DESCRIPTION_KEY (.str "")).saveItem SESSION_STATE_KEY (.str ss))
          (_getResourceFromState ri.stateResponse)).saveItem
          (ACCESS_TOKEN_KEY ++ _getResourceFromState ri.stateResponse) (.str atok)).saveItem
          (EXPIRATION_KEY ++ _getResourceFromState ri.stateResponse)
          (_expiresIn now (ri.parameters "expires_in"))), ?_, ?_⟩
      · rw [Store.get_saveItem_ne _ _ _ _ (nNX _),
          Store.get_saveItem_ne _ _ _ _ (nNA _), appendTokenKey_get_ne _ _ _ nNT,
          Store.get_saveItem_ne _ _ _ _ nNS, Store.get_saveItem_ne _ _ _ _ nND,
          Store.get_saveItem_ne _ _ _ _ nNE]
      · simp [saveTokenFromHash, hnoerr, hmatch, htok, hss, hat]

/-- What the id-token branch does, as a function of the nonce check on the
store it is handed. -/
theorem idTokenBranch_spec (cfg : Config) (dec : String → Option ClaimMap)
    (s3 : Store) (params : Params) (tok : String) (reso : String) (u : User)
    (huser : _createUser cfg.clientId dec tok = some u) :
    (_matchNonce s3 u = false →
      idTokenBranch cfg dec s3 params tok reso =
        (s3.saveItem LOGIN_ERROR_KEY (.str (nonceMismatchMessage s3 u)), none,
         params, reso)) ∧
    (_matchNonce s3 u = true →
      (idTokenBranch cfg dec s3 params tok reso).2.1 = some u ∧
      (idTokenBranch cfg dec s3 params tok reso).2.2.2 =
        jsOrStr cfg.loginResource cfg.clientId ∧
      (idTokenBranch cfg dec s3 params tok reso).2.2.1 = params ∧
      (idTokenBranch cfg dec s3 params tok reso).1.get IDTOKEN_KEY =
        some (.str tok) ∧
      (idTokenBranch cfg dec s3 params tok reso).1.get
        (ACCESS_TOKEN_KEY ++ jsOrStr cfg.loginResource cfg.clientId) =
        some (.str tok) ∧
      (∀ e, u.profile.exp = some e →
        (idTokenBranch cfg dec s3 params tok reso).1.get
          (EXPIRATION_KEY ++ jsOrStr cfg.loginResource cfg.clientId) =
          some (.num e))) := by
  have nIT : IDTOKEN_KEY ≠ TOKEN_KEYS_KEY := by decide
  have nIA : ∀ r : String, IDTOKEN_KEY ≠ ACCESS_TOKEN_KEY ++ r := fun r =>
    str_lit_ne_append _ _ _ 4 (by decide) (by decide) (by decide)
  have nIX : ∀ r : String, IDTOKEN_KEY ≠ EXPIRATION_KEY ++ r := fun r =>
    str_lit_ne_append _ _ _ 4 (by decide) (by decide) (by decide)
  have nAX : ∀ r1 r2 : String, ACCESS_TOKEN_KEY ++ r1 ≠ EXPIRATION_KEY ++ r2 :=
    fun r1 r2 => str_append_ne _ _ _ _ 4 (by decide) (by decide) (by decide)
  constructor
  · intro hn
    simp [idTokenBranch, huser, hn]
  · intro hn
    have hbr : idTokenBranch cfg dec s3 params tok reso =
        (((appendTokenKey (s3.saveItem IDTOKEN_KEY (.str tok))
            (jsOrStr cfg.loginResource cfg.clientId)).saveItem
            (ACCESS_TOKEN_KEY ++ jsOrStr cfg.loginResource cfg.clientId)
            (.str tok)).saveItem
            (EXPIRATION_KEY ++ jsOrStr cfg.loginResource cfg.clientId)
            (match u.profile.exp with
             | some e => .num e
             | none => .str "undefined"),
         some u, params, jsOrStr cfg.loginResource cfg.clientId) := by
      simp [idTokenBranch, huser, hn]
    refine ⟨by rw [hbr], by rw [hbr], by rw [hbr], ?_, ?_, ?_⟩
    · rw [hbr]
      simp only
      rw [Store.get_saveItem_ne _ _ _ _ (nIX _),
        Store.get_saveItem_ne _ _ _ _ (nIA _),
        appendTokenKey_get_ne _ _ _ nIT, Store.get_saveItem_same]
    · rw [hbr]
      simp only
      rw [Store.get_saveItem_ne _ _ _ _ (nAX _ _), Store.get_saveItem_same]
    · intro e he
      rw [hbr]
      simp only
      rw [Store.get_saveItem_same, he]

/-- C3.  For every response carrying an identity token with stateMatch true
and no error_description, whose token decodes to an identity: if the decoded
token's nonce claim does not appear in the stored nonce list, the identity is
discarded (the user ends up unset) and a login error is recorded; if the
nonce matches, the identity token is persisted as the cached token for the
login resource (defaulting to the client id) with expiry taken from the
token's own exp claim. -/
theorem claim3_saveTokenFromHash_idtoken (cfg : Config)
    (dec : String → Option ClaimMap) (now : Nat) (st : OrchState)
    (ri : RequestInfo) (tok : String) (u : User)
    (htok : ri.parameters "id_token" = some tok)
    (hnoerr : ri.parameters "error_description" = none)
    (hmatch : ri.stateMatch = true)
    (huser : _createUser cfg.clientId dec tok = some u) :
    (_matchNonce st.store u = false →
      (saveTokenFromHash cfg dec now st ri).1.user = none ∧
      ∃ m, (saveTokenFromHash cfg dec now st ri).1.store.get LOGIN_ERROR_KEY =
        some (.str m)) ∧
    (_matchNonce st.store u = true →
      (saveTokenFromHash cfg dec now st ri).1.user = some u ∧
      (saveTokenFromHash cfg dec now st ri).1.store.get IDTOKEN_KEY =
        some (.str tok) ∧
      (saveTokenFromHash cfg dec now st ri).1.store.get
        (ACCESS_TOKEN_KEY ++ jsOrStr cfg.loginResource cfg.clientId) =
        some (.str tok) ∧
      (∀ e, u.profile.exp = some e →
        (saveTokenFromHash cfg dec now st ri).1.store.get
          (EXPIRATION_KEY ++ jsOrStr cfg.loginResource cfg.clientId) =
          some (.num e))) := by
  have nLR : ∀ r : String, LOGIN_ERROR_KEY ≠ RENEW_STATUS_KEY ++ r := fun r =>
    str_lit_ne_append _ _ _ 4 (by decide) (by decide) (by decide)
  have nIR : ∀ r : String, IDTOKEN_KEY ≠ RENEW_STATUS_KEY ++ r := fun r =>
    str_lit_ne_append _ _ _ 4 (by decide) (by decide) (by decide)
  have nAR : ∀ r1 r2 : String, ACCESS_TOKEN_KEY ++ r1 ≠ RENEW_STATUS_KEY ++ r2 :=
    fun r1 r2 => str_append_ne _ _ _ _ 4 (by decide) (by decide) (by decide)
  have nXR : ∀ r1 r2 : String, EXPIRATION_KEY ++ r1 ≠ RENEW_STATUS_KEY ++ r2 :=
    fun r1 r2 => str_append_ne _ _ _ _ 4 (by decide) (by decide) (by decide)
  obtain ⟨s3, hs3, hout⟩ :=
    saveTokenFromHash_id_case cfg dec now st ri tok hnoerr hmatch htok
  have hspec := idTokenBranch_spec cfg dec s3 ri.parameters tok
    (_getResourceFromState ri.stateResponse) u huser
  have hcong : _matchNonce s3 u = _matchNonce st.store u :=
    matchNonce_congr s3 st.store u hs3
  constructor
  · intro hn
    have hbr := hspec.1 (hcong.trans hn)
    rw [hbr] at hout
    rw [hout]
    refine ⟨rfl, nonceMismatchMessage s3 u, ?_⟩
    simp only
    rw [Store.get_saveItem_ne _ _ _ _ (nLR _), Store.get_saveItem_same]
  · intro hn
    have hsp2 := hspec.2 (hcong.trans hn)
    rcases hbr : idTokenBranch cfg dec s3 ri.parameters tok
      (_getResourceFromState ri.stateResponse) with ⟨s4, user4, params4, resource4⟩
    rw [hbr] at hout hsp2
    simp only at hsp2
    obtain ⟨hu4, hr4, -, hid4, hat4, hexp4⟩ := hsp2
    rw [hout]
    refine ⟨hu4, ?_, ?_, ?_⟩
    · simp only
      rw [Store.get_saveItem_ne _ _ _ _ (nIR _), hid4]
    · simp only
      rw [Store.get_saveItem_ne _ _ _ _ (nAR _ _), hat4]
    · intro e he
      simp only
      rw [Store.get_saveItem_ne _ _ _ _ (nXR _ _), hexp4 e he]

/-- Witness for C3 at concrete inputs: with stored nonce list matching the
token's nonce claim the id token is cached for the login resource (the client
id) with the token's exp; with a different stored nonce the user is discarded
and a login error recorded. -/
theorem claim3_witness :
    (saveTokenFromHash {clientId := "c"} idPayloadDecoderExample 500
      idStateExample idResponseExample).1.store.get (ACCESS_TOKEN_KEY ++ "c") =
      some (.str "h.p.s") ∧
    (saveTokenFromHash {clientId := "c"} idPayloadDecoderExample 500
      idStateExample idResponseExample).1.store.get (EXPIRATION_KEY ++ "c") =
      some (.num 99) ∧
    (saveTokenFromHash {clientId := "c"} idPayloadDecoderExample 500
      idStateExample idResponseExample).1.user = some ⟨"", idClaimsExample⟩ ∧
    (saveTokenFromHash {clientId := "c"} idPayloadDecoderExample 500
      idStateMismatchExample idResponseExample).1.user = none ∧
    ∃ m, (saveTokenFromHash {clientId := "c"} idPayloadDecoderExample 500
      idStateMismatchExample idResponseExample).1.store.get LOGIN_ERROR_KEY =
      some (.str m) := by
  have h1 := claim3_saveTokenFromHash_idtoken {clientId := "c"}
    idPayloadDecoderExample 500 idStateExample idResponseExample "h.p.s"
    ⟨"", idClaimsExample⟩ (by decide) (by decide) rfl (by decide)
  have h2 := claim3_saveTokenFromHash_idtoken {clientId := "c"}
    idPayloadDecoderExample 500 idStateMismatchExample idResponseExample "h.p.s"
    ⟨"", idClaimsExample⟩ (by decide) (by decide) rfl (by decide)
  have hmatch1 := h1.2 (by decide)
  have hmis := h2.1 (by decide)
  exact ⟨hmatch1.2.2.1, hmatch1.2.2.2 99 rfl, hmatch1.1, hmis.1, hmis.2⟩

/-- C10.  When the response carries error_description, the save step writes
only the error keys, the login-error key and login-in-progress flag (for
LOGIN requests only), and the per-resource renewal status; every cached token
record and the stored identity token remain untouched, for every resource. -/
theorem claim10_saveTokenFromHash_error (cfg : Config)
    (dec : String → Option ClaimMap) (now : Nat) (st : OrchState)
    (ri : RequestInfo) (d : String)
    (hd : ri.parameters "error_description" = some d) :
    (∀ k, k ≠ ERROR_KEY → k ≠ ERROR_DESCRIPTION_KEY →
      (ri.requestType = .LOGIN → k ≠ LOGIN_ERROR_KEY) →
      k ≠ RENEW_STATUS_KEY ++ _getResourceFromState ri.stateResponse →
      (saveTokenFromHash cfg dec now st ri).1.store.get k = st.store.get k) ∧
    (∀ r, (saveTokenFromHash cfg dec now st ri).1.store.get
        (ACCESS_TOKEN_KEY ++ r) = st.store.get (ACCESS_TOKEN_KEY ++ r) ∧
      (saveTokenFromHash cfg dec now st ri).1.store.get (EXPIRATION_KEY ++ r) =
        st.store.get (EXPIRATION_KEY ++ r)) ∧
    (saveTokenFromHash cfg dec now st ri).1.store.get IDTOKEN_KEY =
      st.store.get IDTOKEN_KEY ∧
    (saveTokenFromHash cfg dec now st ri).1.store.get
      (RENEW_STATUS_KEY ++ _getResourceFromState ri.stateResponse) =
      some (.str TOKEN_RENEW_STATUS_COMPLETED) ∧
    (ri.requestType ≠ .LOGIN →
      (saveTokenFromHash cfg dec now st ri).1.loginInProgress =
        st.loginInProgress ∧
      (saveTokenFromHash cfg dec now st ri).1.store.get LOGIN_ERROR_KEY =
        st.store.get LOGIN_ERROR_KEY) ∧
    (ri.requestType = .LOGIN →
      (saveTokenFromHash cfg dec now st ri).1.loginInProgress = false ∧
      (saveTokenFromHash cfg dec now st ri).1.store.get LOGIN_ERROR_KEY =
        some (.str d)) := by
  have hframe : ∀ k, k ≠ ERROR_KEY → k ≠ ERROR_DESCRIPTION_KEY →
      (ri.requestType = .LOGIN → k ≠ LOGIN_ERROR_KEY) →
      k ≠ RENEW_STATUS_KEY ++ _getResourceFromState ri.stateResponse →
      (saveTokenFromHash cfg dec now st ri).1.store.get k = st.store.get k := by
    intro k hk1 hk2 hk3 hk4
    by_cases hrt : ri.requestType = .LOGIN
    · simp [saveTokenFromHash, hd, hrt, Store.get, Store.saveItem, hk1, hk2,
        hk3 hrt, hk4]
    · simp [saveTokenFromHash, hd, hrt, Store.get, Store.saveItem, hk1, hk2, hk4]
  have nAE : ∀ r : String, ACCESS_TOKEN_KEY ++ r ≠ ERROR_KEY := fun r =>
    str_append_ne_lit _ _ _ 4 (by decide) (by decide) (by decide)
  have nAD : ∀ r : String, ACCESS_TOKEN_KEY ++ r ≠ ERROR_DESCRIPTION_KEY :=
    fun r => str_append_ne_lit _ _ _ 4 (by decide) (by decide) (by decide)
  have nAL : ∀ r : String, ACCESS_TOKEN_KEY ++ r ≠ LOGIN_ERROR_KEY := fun r =>
    str_append_ne_lit _ _ _ 4 (by decide) (by decide) (by decide)
  have nAR : ∀ r1 r2 : String, ACCESS_TOKEN_KEY ++ r1 ≠ RENEW_STATUS_KEY ++ r2 :=
    fun r1 r2 => str_append_ne _ _ _ _ 4 (by decide) (by decide) (by decide)
  have nXE : ∀ r : String, EXPIRATION_KEY ++ r ≠ ERROR_KEY := fun r =>
    str_append_ne_lit _ _ _ 5 (by decide) (by decide) (by decide)
  have nXD : ∀ r : String, EXPIRATION_KEY ++ r ≠ ERROR_DESCRIPTION_KEY :=
    fun r => str_append_ne_lit _ _ _ 5 (by decide) (by decide) (by decide)
  have nXL : ∀ r : String, EXPIRATION_KEY ++ r ≠ LOGIN_ERROR_KEY := fun r =>
    str_append_ne_lit _ _ _ 4 (by decide) (by decide) (by decide)
  have nXR : ∀ r1 r2 : String, EXPIRATION_KEY ++ r1 ≠ RENEW_STATUS_KEY ++ r2 :=
    fun r1 r2 => str_append_ne _ _ _ _ 4 (by decide) (by decide) (by decide)
  have nIR : ∀ r : String, IDTOKEN_KEY ≠ RENEW_STATUS_KEY ++ r := fun r =>
    str_lit_ne_append _ _ _ 4 (by decide) (by decide) (by decide)
  have nLR : ∀ r : String, LOGIN_ERROR_KEY ≠ RENEW_STATUS_KEY ++ r := fun r =>
    str_lit_ne_append _ _ _ 4 (by decide) (by decide) (by decide)
  refine ⟨hframe, ?_, ?_, ?_, ?_, ?_⟩
  · intro r
    exact ⟨hframe _ (nAE r) (nAD r) (fun _ => nAL r) (nAR r _),
      hframe _ (nXE r) (nXD r) (fun _ => nXL r) (nXR r _)⟩
  · exact hframe _ (by decide) (by decide) (fun _ => by decide) (nIR _)
  · by_cases hrt : ri.requestType = .LOGIN
    · simp [saveTokenFromHash, hd, hrt, Store.get, Store.saveItem]
    · simp [saveTokenFromHash, hd, hrt, Store.get, Store.saveItem]
  · intro hrt
    constructor
    · simp [saveTokenFromHash, hd, hrt]
    · exact hframe _ (by decide) (by decide) (fun h => absurd h hrt) (nLR _)
  · intro hrt
    constructor
    · simp [saveTokenFromHash, hd, hrt]
    · simp only [saveTokenFromHash, hd, hrt]
      simp [Store.get, Store.saveItem, nLR _, (by decide : ¬ (LOGIN_ERROR_KEY = ERROR_KEY))]

/-- Witness for C10 at a concrete error response: the cached-token record of
an unrelated resource survives, the renewal status for the state's resource
is finalized, and for a RENEW_TOKEN request the login flag is untouched. -/
theorem claim10_witness :
    (saveTokenFromHash {clientId := "c"} idPayloadDecoderExample 0
      errorStateExample errorResponseExample).1.store.get
      (ACCESS_TOKEN_KEY ++ "x") =
      errorStateExample.store.get (ACCESS_TOKEN_KEY ++ "x") ∧
    (saveTokenFromHash {clientId := "c"} idPayloadDecoderExample 0
      errorStateExample errorResponseExample).1.store.get
      (RENEW_STATUS_KEY ++ "res") = some (.str TOKEN_RENEW_STATUS_COMPLETED) ∧
    (saveTokenFromHash {clientId := "c"} idPayloadDecoderExample 0
      errorStateExample errorResponseExample).1.loginInProgress =
      errorStateExample.loginInProgress := by
  have h := claim10_saveTokenFromHash_error {clientId := "c"}
    idPayloadDecoderExample 0 errorStateExample errorResponseExample "boom"
    (by decide)
  refine ⟨(h.2.1 "x").1, ?_, (h.2.2.2.2.1 (by decide)).1⟩
  have hres : _getResourceFromState errorResponseExample.stateResponse = "res" := by
    decide
  have := h.2.2.2.1
  rwa [hres] at this

/-- C9 (code-bug evidence).  `acquireTokenRedirect` invoked with an empty
resource raises a TypeError instead of delivering the failure through the
callback: the local `callback` is read before `var callback = this.callback`
has executed, whatever callback is configured and whatever the identity
state. -/
theorem claim9_acquireTokenRedirect_throws (thisCallback : Option Nat)
    (user : Option User) (inProgress : Bool) :
    acquireTokenRedirect thisCallback user inProgress "" = .threwTypeError := rfl

end Adal
